import Mathlib

/-!
Shallow embedding of the license-expression analyzer
(`src/parser/src/{models,license_database,license_expression_parser}.rs`)
together with theorems settling the frozen claims about its specification.
-/

set_option maxHeartbeats 1000000

/-- `models.rs`: the eleven license categories (`NewCopyleftStrength`). -/
inductive NewCopyleftStrength where
  | CLA
  | Commercial
  | Copyleft
  | CopyleftLimited
  | FreeRestricted
  | PatentLicense
  | Permissive
  | ProprietaryFree
  | PublicDomain
  | SourceAvailable
  | UnstatedLicense
deriving DecidableEq, Repr

/-- `models.rs`: risk levels. -/
inductive RiskLevel where
  | Low
  | Medium
  | High
  | Critical
  | Unknown
deriving DecidableEq, Repr

/-- `license_database.rs`: a license record (`NewLicense`). -/
structure NewLicense where
  id : String
  name : String
  copyleft_strength : NewCopyleftStrength
deriving DecidableEq, Repr

/-- `models.rs`: the SPDX expression AST (`SpdxExpr`). -/
inductive SpdxExpr where
  | License (id : String)
  | And (left right : SpdxExpr)
  | Or (left right : SpdxExpr)
  | With (base : SpdxExpr) (exception : String)
deriving DecidableEq, Repr

/-- `models.rs`: `new_copyleft_strength_order`, the 0..10 strength rank. -/
def new_copyleft_strength_order : NewCopyleftStrength → Nat
  | .UnstatedLicense => 10
  | .Commercial => 9
  | .Copyleft => 8
  | .SourceAvailable => 7
  | .CopyleftLimited => 6
  | .FreeRestricted => 5
  | .ProprietaryFree => 4
  | .PatentLicense => 3
  | .CLA => 2
  | .Permissive => 1
  | .PublicDomain => 0

/-- ASCII uppercase of one character (the fragment of Rust `to_uppercase`
exercised by this program; identifiers and keywords are ASCII). -/
def charUpper (c : Char) : Char :=
  if 'a' ≤ c ∧ c ≤ 'z' then Char.ofNat (c.toNat - 32) else c

/-- ASCII uppercase of a string (Rust `str::to_uppercase` on ASCII input). -/
def strUpper (s : String) : String := String.mk (s.data.map charUpper)

/-- ASCII lowercase of one character. -/
def charLower (c : Char) : Char :=
  if 'A' ≤ c ∧ c ≤ 'Z' then Char.ofNat (c.toNat + 32) else c

/-- ASCII lowercase of a string (Rust `str::to_lowercase` on ASCII input). -/
def strLower (s : String) : String := String.mk (s.data.map charLower)

/-- Helper: `pat` is a (contiguous) leading piece of `l`. -/
def startsWithL : List Char → List Char → Bool
  | [], _ => true
  | _ :: _, [] => false
  | a :: as, b :: bs => a = b && startsWithL as bs

/-- Helper: `pat` occurs contiguously somewhere in the second list. -/
def containsSub (pat : List Char) : List Char → Bool
  | [] => startsWithL pat []
  | c :: rest => startsWithL pat (c :: rest) || containsSub pat rest

/-- Rust `str::contains` with a string pattern: substring test. -/
def strContains (s pat : String) : Bool :=
  containsSub pat.data s.data

/-- `license_expression_parser.rs`: `same_license_family` fixed family table. -/
def same_license_family (id1 id2 : String) : Bool :=
  let families : List (String × List String) :=
    [("MIT", ["MIT", "Expat", "X11"]),
     ("BSD", ["BSD-2-Clause", "BSD-3-Clause", "BSD-4-Clause"]),
     ("Apache", ["Apache-1.1", "Apache-2.0"]),
     ("GPL", ["GPL-2.0", "GPL-3.0", "GPL-2.0-only", "GPL-3.0-only"]),
     ("LGPL", ["LGPL-2.0", "LGPL-2.1", "LGPL-3.0", "LGPL-2.1-only", "LGPL-3.0-only"])]
  families.any (fun fam =>
    fam.2.any (fun m => strContains id1 m) && fam.2.any (fun m => strContains id2 m))

/-- `license_expression_parser.rs`: `check_specific_compatibility`, the ordered
identifier-pattern rule list (first match wins, as in the Rust `match`). -/
def check_specific_compatibility (a b : NewLicense) : Bool :=
  if a.id == "GPL-2.0-only" && strContains b.id "GPL-3.0" then false
  else if b.id == "GPL-2.0-only" && strContains a.id "GPL-3.0" then false
  else if a.id == "GPL-2.0-or-later" && strContains b.id "GPL-3.0" then true
  else if b.id == "GPL-2.0-or-later" && strContains a.id "GPL-3.0" then true
  else if strContains a.id "LGPL-3.0" && strContains b.id "GPL-3.0" then true
  else if strContains a.id "GPL-3.0" && strContains b.id "LGPL-3.0" then true
  else if a.id == "LGPL-2.1-only" && b.id == "LGPL-2.1-or-later" then true
  else if a.id == "LGPL-2.1-or-later" && b.id == "LGPL-2.1-only" then true
  else if a.id == "LGPL-3.0-only" && b.id == "LGPL-3.0-or-later" then true
  else if a.id == "LGPL-3.0-or-later" && b.id == "LGPL-3.0-only" then true
  else if (a.id == "MIT" && b.id == "LGPL-2.1") || (a.id == "LGPL-2.1" && b.id == "MIT") then true
  else if (a.id == "MIT" && b.id == "LGPL-3.0") || (a.id == "LGPL-3.0" && b.id == "MIT") then true
  else if (a.id == "Apache-2.0" && b.id == "LGPL-3.0") || (a.id == "LGPL-3.0" && b.id == "Apache-2.0") then true
  else if a.id == "CC0-1.0" || b.id == "CC0-1.0" then true
  else if a.id == "Unlicense" || b.id == "Unlicense" then true
  else if same_license_family a.id b.id then true
  else decide (new_copyleft_strength_order a.copyleft_strength ≤ 5)
    && decide (new_copyleft_strength_order b.copyleft_strength ≤ 5)

/-- `license_expression_parser.rs`: `are_licenses_compatible`, the category-level
rule list (arm order as in the Rust `match`). -/
def are_licenses_compatible (a b : NewLicense) : Bool :=
  if a.id == b.id then true
  else
    match a.copyleft_strength, b.copyleft_strength with
    | .PublicDomain, _ => true
    | _, .PublicDomain => true
    | .Permissive, _ => true
    | _, .Permissive => true
    | .CLA, .CLA => true
    | .CLA, _ => true
    | _, .CLA => true
    | .PatentLicense, _ => true
    | _, .PatentLicense => true
    | .ProprietaryFree, .ProprietaryFree => true
    | .FreeRestricted, .FreeRestricted => true
    | .CopyleftLimited, .Copyleft => check_specific_compatibility a b
    | .Copyleft, .CopyleftLimited => check_specific_compatibility a b
    | .Copyleft, .Copyleft => false
    | .Copyleft, .SourceAvailable => false
    | .SourceAvailable, .Copyleft => false
    | .Commercial, _ => false
    | _, .Commercial => false
    | .UnstatedLicense, _ => false
    | _, .UnstatedLicense => false
    | _, _ => check_specific_compatibility a b

/-- `license_expression_parser.rs`: `choose_stronger_license` (ties left-biased). -/
def choose_stronger_license (a b : NewLicense) : NewLicense :=
  if new_copyleft_strength_order a.copyleft_strength ≥
      new_copyleft_strength_order b.copyleft_strength then a else b

/-- The push step shared by both passes of `find_compatible_licenses`:
append unless the id is already present. -/
def push_unique (acc : List NewLicense) (x : NewLicense) : List NewLicense :=
  if acc.any (fun l => l.id == x.id) then acc else acc ++ [x]

/-- `license_expression_parser.rs`: `find_compatible_licenses` first pass —
push `choose_stronger` of each compatible pair, skipping ids already present. -/
def compat_pass (left right : List NewLicense) : List NewLicense :=
  left.foldl (fun acc a =>
    right.foldl (fun acc2 b =>
      if are_licenses_compatible a b then
        push_unique acc2 (choose_stronger_license a b)
      else acc2) acc) []

/-- `license_expression_parser.rs`: `find_compatible_licenses` fallback pass —
same over all pairs ignoring compatibility (starting from the empty vector). -/
def fallback_pass (left right : List NewLicense) : List NewLicense :=
  left.foldl (fun acc a =>
    right.foldl (fun acc2 b =>
      push_unique acc2 (choose_stronger_license a b)) acc) []

/-- `license_expression_parser.rs`: `find_compatible_licenses`. -/
def find_compatible_licenses (left right : List NewLicense) : List NewLicense :=
  let compatible := compat_pass left right
  if compatible.isEmpty then fallback_pass left right else compatible

/-- `license_expression_parser.rs`: `find_strongest_copyleft` — maximum by rank
over the candidates' categories (Rust `max_by_key`: on ties the later element
wins), `PublicDomain` when the list is empty. -/
def find_strongest_copyleft (licenses : List NewLicense) : NewCopyleftStrength :=
  match licenses with
  | [] => .PublicDomain
  | l :: rest =>
    rest.foldl (fun acc m =>
      if new_copyleft_strength_order m.copyleft_strength ≥
          new_copyleft_strength_order acc then m.copyleft_strength else acc)
      l.copyleft_strength

/-- Stable insertion step for an ascending sort by strength rank. -/
def sort_insert (x : NewLicense) : List NewLicense → List NewLicense
  | [] => [x]
  | y :: ys =>
    if new_copyleft_strength_order x.copyleft_strength ≤
        new_copyleft_strength_order y.copyleft_strength
    then x :: y :: ys
    else y :: sort_insert x ys

/-- Stable ascending sort by strength rank (the semantics of Rust's stable
`sort_by_key` in `choose_recommended_license`). -/
def sort_by_strength (licenses : List NewLicense) : List NewLicense :=
  licenses.foldr sort_insert []

/-- `license_expression_parser.rs`: `choose_recommended_license` — `None` on an
empty list, else the head of the stable ascending sort by rank. -/
def choose_recommended_license (licenses : List NewLicense) : Option NewLicense :=
  if licenses.isEmpty then none else (sort_by_strength licenses).head?

/-- `license_expression_parser.rs`: `assess_risk_level`. -/
def assess_risk_level (strongest : NewCopyleftStrength) (licenses : List NewLicense) :
    RiskLevel :=
  if licenses.isEmpty then .Critical
  else
    match strongest with
    | .PublicDomain => .Low
    | .Permissive => .Low
    | .CopyleftLimited => .Medium
    | .Copyleft => .High
    | .UnstatedLicense => .Unknown
    | .CLA => .Low
    | .Commercial => .Critical
    | .FreeRestricted => .Medium
    | .PatentLicense => .Medium
    | .ProprietaryFree => .Medium
    | .SourceAvailable => .High

/-- `license_expression_parser.rs`: category-specific guidance lines of
`generate_compliance_notes`. -/
def category_notes : NewCopyleftStrength → List String
  | .Copyleft =>
    ["Copyleft: All derivative works must use compatible licenses",
     "Required: Provide complete source code upon distribution",
     "Caution: Static linking may affect entire codebase"]
  | .CopyleftLimited =>
    ["CopyleftLimited: Only modifications to this component must be open-sourced",
     "Dynamic linking generally acceptable"]
  | .Permissive =>
    ["Permissive/PublicDomain: Minimal compliance requirements",
     "Required: Include license notice and attribution"]
  | .PublicDomain =>
    ["Permissive/PublicDomain: Minimal compliance requirements",
     "Required: Include license notice and attribution"]
  | .CLA =>
    ["CLA: Contributor License Agreement required for contributions",
     "Review: Ensure all contributors have signed appropriate CLA"]
  | .Commercial =>
    ["Commercial: Proprietary license with commercial terms",
     "Review: Check license terms for usage restrictions and fees",
     "Caution: May have redistribution limitations"]
  | .FreeRestricted =>
    ["Free Restricted: Permissive-style license with usage restrictions",
     "Review: Check specific restrictions on usage or redistribution"]
  | .PatentLicense =>
    ["Patent License: Covers patent rights rather than software copyright",
     "Review: Ensure patent license terms are compatible with software usage"]
  | .ProprietaryFree =>
    ["Proprietary Free: Free to use but with proprietary terms",
     "Review: Check specific terms and conditions for usage"]
  | .SourceAvailable =>
    ["Source Available: Source code provided without full open-source compliance",
     "Review: Check redistribution and modification rights"]
  | .UnstatedLicense =>
    ["Unknown license: Manual legal review required"]

/-- `license_expression_parser.rs`: `generate_compliance_notes`. -/
def generate_compliance_notes (licenses : List NewLicense)
    (recommended : Option NewLicense) : List String :=
  if licenses.isEmpty then
    ["No compatible licenses found - this is a licensing conflict!"]
  else
    let notes :=
      match recommended with
      | none => []
      | some r =>
        ("Recommended license choice: " ++ r.id) :: category_notes r.copyleft_strength
    if licenses.length > 1 then
      let alternatives := (licenses.filter (fun l => ¬ (some l = recommended))).map (·.id)
      if alternatives.isEmpty then notes
      else notes ++ ["Alternative licenses available: " ++ String.intercalate ", " alternatives]
    else notes

/-- `license_expression_parser.rs`: `find_conflicts` — generic message on an
empty set, plus the fixed GPL-2.0-only / GPL-3.0 message when both appear. -/
def find_conflicts (licenses : List NewLicense) : List String :=
  let conflicts :=
    if licenses.isEmpty then
      ["Complete licensing conflict - no compatible licenses found"]
    else []
  let has_gpl2_only := licenses.any (fun l => l.id == "GPL-2.0-only")
  let has_gpl3 := licenses.any (fun l => strContains l.id "GPL-3.0")
  if has_gpl2_only && has_gpl3 then
    conflicts ++ ["GPL-2.0-only is incompatible with GPL-3.0+ licenses"]
  else conflicts

/-- `license_expression_parser.rs`: `tokenize` worker over the characters,
carrying the token list, current token, and parenthesis depth. -/
def tokenize_aux : List Char → List String → List Char → Int → Except String (List String)
  | [], tokens, cur, depth =>
    let tokens := if cur.isEmpty then tokens else tokens ++ [String.mk cur]
    if depth ≠ 0 then .error "Mismatched parentheses" else .ok tokens
  | ch :: rest, tokens, cur, depth =>
    if ch = '(' then
      let tokens := if cur.isEmpty then tokens else tokens ++ [String.mk cur]
      tokenize_aux rest (tokens ++ ["("]) [] (depth + 1)
    else if ch = ')' then
      let tokens := if cur.isEmpty then tokens else tokens ++ [String.mk cur]
      tokenize_aux rest (tokens ++ [")"]) [] (depth - 1)
    else if ch = ' ' ∨ ch = '\t' ∨ ch = '\n' then
      let tokens := if cur.isEmpty then tokens else tokens ++ [String.mk cur]
      tokenize_aux rest tokens [] depth
    else
      tokenize_aux rest tokens (cur ++ [ch]) depth

/-- `license_expression_parser.rs`: `tokenize`. -/
def tokenize (expression : String) : Except String (List String) :=
  tokenize_aux expression.data [] [] 0

/-- Parser mode: which of the recursive-descent functions of
`license_expression_parser.rs` is executing (the `*_loop` modes carry the
left operand accumulated by the corresponding Rust `while` loop). -/
inductive ParseMode where
  | orE
  | orLoop (left : SpdxExpr)
  | andE
  | andLoop (left : SpdxExpr)
  | withE
  | withLoop (left : SpdxExpr)
  | primary
deriving Repr

/-- The recursive-descent parser of `license_expression_parser.rs`, all six
mutually recursive functions folded into one fuel-indexed function keyed by
`ParseMode` (so that it is structurally recursive and computes):
`orE`/`andE`/`withE` are `parse_or_expression`/`parse_and_expression`/
`parse_with_expression`, the `*Loop` modes are their `while` loops, and
`primary` is `parse_primary`. -/
def parse_step : Nat → ParseMode → List String → Nat → Except String (SpdxExpr × Nat)
  | 0, _, _, _ => .error "out of fuel"
  | fuel + 1, .orE, ts, pos =>
    match parse_step fuel .andE ts pos with
    | .error e => .error e
    | .ok (l, p) => parse_step fuel (.orLoop l) ts p
  | fuel + 1, .orLoop left, ts, pos =>
    if pos < ts.length ∧ (strUpper (ts.getD pos "")) = "OR" then
      match parse_step fuel .andE ts (pos + 1) with
      | .error e => .error e
      | .ok (r, p) => parse_step fuel (.orLoop (.Or left r)) ts p
    else .ok (left, pos)
  | fuel + 1, .andE, ts, pos =>
    match parse_step fuel .withE ts pos with
    | .error e => .error e
    | .ok (l, p) => parse_step fuel (.andLoop l) ts p
  | fuel + 1, .andLoop left, ts, pos =>
    if pos < ts.length ∧ (strUpper (ts.getD pos "")) = "AND" then
      match parse_step fuel .withE ts (pos + 1) with
      | .error e => .error e
      | .ok (r, p) => parse_step fuel (.andLoop (.And left r)) ts p
    else .ok (left, pos)
  | fuel + 1, .withE, ts, pos =>
    match parse_step fuel .primary ts pos with
    | .error e => .error e
    | .ok (l, p) => parse_step fuel (.withLoop l) ts p
  | fuel + 1, .withLoop left, ts, pos =>
    if pos < ts.length ∧ (strUpper (ts.getD pos "")) = "WITH" then
      if pos + 1 < ts.length then
        parse_step fuel (.withLoop (.With left (ts.getD (pos + 1) ""))) ts (pos + 2)
      else .error "Expected exception after WITH"
    else .ok (left, pos)
  | fuel + 1, .primary, ts, pos =>
    if pos < ts.length then
      let tok := ts.getD pos ""
      if tok = "(" then
        match parse_step fuel .orE ts (pos + 1) with
        | .error e => .error e
        | .ok (e, p) =>
          if p < ts.length ∧ ts.getD p "" = ")" then .ok (e, p + 1)
          else .error "Expected closing parenthesis"
      else .ok (.License tok, pos + 1)
    else .error "Unexpected end of expression"

/-- `license_expression_parser.rs`: `parse_or_expression`. -/
def parse_or_expression (fuel : Nat) (ts : List String) (pos : Nat) :
    Except String (SpdxExpr × Nat) :=
  parse_step fuel .orE ts pos

/-- Ample fuel for a token list: the Rust parser's recursion depth is bounded
by a small multiple of the token count. -/
def parse_fuel (ts : List String) : Nat := 4 * ts.length + 8

/-- Top-level parse over a token list: the final position is discarded, so
trailing tokens are not required to be consumed (as in the Rust `parse`). -/
def parse_tokens (ts : List String) : Except String SpdxExpr :=
  match parse_or_expression (parse_fuel ts) ts 0 with
  | .ok (e, _) => .ok e
  | .error e => .error e

/-- `license_expression_parser.rs`: `parse` — tokenize then parse from
position 0. -/
def parse (expression : String) : Except String SpdxExpr :=
  match tokenize expression with
  | .ok ts => parse_tokens ts
  | .error e => .error e

/-- `license_expression_parser.rs`: `evaluate_expression`, parameterized by the
registry snapshot (`license_db` lookups, i.e. `HashMap::get`). -/
def evaluate_expression (db : String → Option NewLicense) : SpdxExpr → List NewLicense
  | .License id =>
    match db (strLower id) with
    | some l => [l]
    | none => [{ id := id, name := "Unknown License: " ++ id,
                 copyleft_strength := .UnstatedLicense }]
  | .Or l r => evaluate_expression db l ++ evaluate_expression db r
  | .And l r =>
    find_compatible_licenses (evaluate_expression db l) (evaluate_expression db r)
  | .With base _ => evaluate_expression db base

/-- `models.rs`: the `LicenseAnalysis` result record. -/
structure LicenseAnalysis where
  original_expression : String
  parsed_expression : Option SpdxExpr
  possible_licenses : List NewLicense
  strongest_copyleft : NewCopyleftStrength
  recommended_choice : Option NewLicense
  risk_level : RiskLevel
  compliance_notes : List String
  conflicts : List String
deriving Repr

/-- `license_expression_parser.rs`: `analyze` — parse (recovering from any
parse error with `None`), evaluate, then derive every report field. -/
def analyze (db : String → Option NewLicense) (expression : String) : LicenseAnalysis :=
  let parsed : Option SpdxExpr :=
    match parse expression with
    | .ok e => some e
    | .error _ => none
  let possible_licenses :=
    match parsed with
    | some e => evaluate_expression db e
    | none => []
  let strongest_copyleft := find_strongest_copyleft possible_licenses
  let recommended_choice := choose_recommended_license possible_licenses
  let risk_level := assess_risk_level strongest_copyleft possible_licenses
  let compliance_notes := generate_compliance_notes possible_licenses recommended_choice
  let conflicts := find_conflicts possible_licenses
  { original_expression := expression
    parsed_expression := parsed
    possible_licenses := possible_licenses
    strongest_copyleft := strongest_copyleft
    recommended_choice := recommended_choice
    risk_level := risk_level
    compliance_notes := compliance_notes
    conflicts := conflicts }

deriving instance DecidableEq for Except

/-- A small concrete registry snapshot used to instantiate claims: lookup keys
are lowercase, stored ids keep their original case (as in `index.json` data fed
through `load_licenses_from_json`). -/
def demoRegistry : String → Option NewLicense := fun k =>
  if k = "mit" then some { id := "MIT", name := "MIT License", copyleft_strength := .Permissive }
  else if k = "apache-2.0" then some { id := "Apache-2.0", name := "Apache License 2.0", copyleft_strength := .Permissive }
  else if k = "gpl-2.0-only" then some { id := "GPL-2.0-only", name := "GPL-2.0-only", copyleft_strength := .Copyleft }
  else if k = "gpl-3.0-only" then some { id := "GPL-3.0-only", name := "GPL-3.0-only", copyleft_strength := .Copyleft }
  else if k = "proprietary-1.0" then some { id := "Proprietary-1.0", name := "Proprietary 1.0", copyleft_strength := .Commercial }
  else none

/-- `license.rs`: the raw dataset entry (`License`) deserialized from
`index.json`. -/
structure RawLicense where
  license_key : String
  category : String
  spdx_license_key : Option String
  other_spdx_license_keys : List String
  is_exception : Bool
  is_deprecated : Bool
  json : String
  yaml : String
  html : String
  license : String
deriving DecidableEq, Repr

/-- `license_database.rs`: the exact-match category-label table of
`load_licenses_from_json` (any other label defaults to `UnstatedLicense`). -/
def category_to_strength (category : String) : NewCopyleftStrength :=
  if category = "Copyleft" then .Copyleft
  else if category = "Copyleft Limited" then .CopyleftLimited
  else if category = "Permissive" then .Permissive
  else if category = "Commercial" then .Commercial
  else if category = "Proprietary Free" then .ProprietaryFree
  else if category = "Public Domain" then .PublicDomain
  else if category = "Free Restricted" then .FreeRestricted
  else if category = "Source-available" then .SourceAvailable
  else if category = "Unstated License" then .UnstatedLicense
  else if category = "Patent License" then .PatentLicense
  else .UnstatedLicense

/-- `license_database.rs`: the `NewLicense` built from one raw entry —
id is the `license_key`, display name is the SPDX key when present. -/
def new_license_of_raw (l : RawLicense) : NewLicense :=
  { id := l.license_key
    name := l.spdx_license_key.getD l.license_key
    copyleft_strength := category_to_strength l.category }

/-- `license_database.rs`: `load_licenses_from_json` — builds the registry map
from the parsed entry list; `HashMap::insert` keyed by `license_key` as-is
(later entries with the same key overwrite earlier ones). -/
def load_licenses_from_json (licenses : List RawLicense) : String → Option NewLicense :=
  licenses.foldl
    (fun db l => fun k => if k = l.license_key then some (new_license_of_raw l) else db k)
    (fun _ => none)

/-- `models.rs`: `impl Display for RiskLevel`. -/
def risk_level_name : RiskLevel → String
  | .Low => "Low"
  | .Medium => "Medium"
  | .High => "High"
  | .Critical => "Critical"
  | .Unknown => "Unknown"

/-- `models.rs`: `impl Display for NewCopyleftStrength`. -/
def strength_display_name : NewCopyleftStrength → String
  | .CLA => "Contributor License Agreement"
  | .Commercial => "Commercial"
  | .Copyleft => "Copyleft"
  | .CopyleftLimited => "Copyleft Limited"
  | .FreeRestricted => "Free Restricted"
  | .PatentLicense => "Patent License"
  | .Permissive => "Permissive"
  | .ProprietaryFree => "Proprietary Free"
  | .PublicDomain => "Public Domain"
  | .SourceAvailable => "Source-available"
  | .UnstatedLicense => "Unstated License"

/-- Rust `Debug` escaping for the characters this program can meet in a
license identifier (quote, backslash and common control characters). -/
def debug_escape_char (c : Char) : List Char :=
  if c = '"' then ['\\', '"']
  else if c = '\\' then ['\\', '\\']
  else if c = '\n' then ['\\', 'n']
  else if c = '\t' then ['\\', 't']
  else if c = '\r' then ['\\', 'r']
  else [c]

/-- Rust `Debug` rendering of a string: quoted and escaped. -/
def debug_str (s : String) : String :=
  "\"" ++ String.mk (s.data.foldr (fun c acc => debug_escape_char c ++ acc) []) ++ "\""

/-- Rust derived `Debug` rendering of an `SpdxExpr` tree. -/
def debug_spdx_expr : SpdxExpr → String
  | .License id => "License(" ++ debug_str id ++ ")"
  | .And l r => "And(" ++ debug_spdx_expr l ++ ", " ++ debug_spdx_expr r ++ ")"
  | .Or l r => "Or(" ++ debug_spdx_expr l ++ ", " ++ debug_spdx_expr r ++ ")"
  | .With l e => "With(" ++ debug_spdx_expr l ++ ", " ++ debug_str e ++ ")"

/-- `models.rs`: everything `impl Display for LicenseAnalysis` writes after its
first three lines (tree dump, candidate list, recommendation, notes,
conflicts). -/
def render_tail (a : LicenseAnalysis) : String :=
  (match a.parsed_expression with
   | some e => "Parsed Expression: " ++ debug_spdx_expr e ++ "\n"
   | none => "") ++
  (if a.possible_licenses.isEmpty then "Possible Licenses: None (CONFLICT)\n"
   else
     "Possible Licenses (" ++ toString a.possible_licenses.length ++ "):\n" ++
     String.join (a.possible_licenses.map (fun l =>
       "  - " ++ l.id ++ " (" ++ strength_display_name l.copyleft_strength ++ ")\n"))) ++
  (match a.recommended_choice with
   | some r => "Recommended Choice: " ++ r.id ++ "\n"
   | none => "") ++
  (if a.compliance_notes.isEmpty then ""
   else "Compliance Notes:\n" ++
     String.join (a.compliance_notes.map (fun n => "  " ++ n ++ "\n"))) ++
  (if a.conflicts.isEmpty then ""
   else "CONFLICTS DETECTED:\n" ++
     String.join (a.conflicts.map (fun c => "  " ++ c ++ "\n")))

/-- `models.rs`: `impl Display for LicenseAnalysis`, line by line in `writeln!`
order. -/
def render (a : LicenseAnalysis) : String :=
  "License Analysis for: " ++ a.original_expression ++ "\n" ++
  "Risk Level: " ++ risk_level_name a.risk_level ++ "\n" ++
  "Strongest Copyleft: " ++ strength_display_name a.strongest_copyleft ++ "\n" ++
  render_tail a

/-- Helper: Boolean string-beginning test built on `startsWithL`. -/
def strStarts (s pre : String) : Bool := startsWithL pre.data s.data

/-- Spec §4.4: all pairs of `L × R`, left-to-right with the inner (right)
index fastest. -/
def all_pairs (L R : List NewLicense) : List (NewLicense × NewLicense) :=
  L.flatMap (fun a => R.map (fun b => (a, b)))

/-- Spec §4.4: deduplication by id — first occurrence wins, insertion order
preserved. -/
def dedup_by_id : List NewLicense → List NewLicense
  | [] => []
  | x :: xs => x :: dedup_by_id (xs.filter (fun y => !(y.id == x.id)))
termination_by l => l.length
decreasing_by exact Nat.lt_succ_of_le (List.length_filter_le _ _)

/-- Modelled from the spec (§4.4 `And` semantics), for comparison with
`find_compatible_licenses`: take `chooseStronger` over all compatible pairs of
`L × R` deduplicated by id, and over all pairs when no pair is compatible. -/
def spec_and_semantics (L R : List NewLicense) : List NewLicense :=
  let compatible :=
    dedup_by_id (((all_pairs L R).filter (fun p => are_licenses_compatible p.1 p.2)).map
      (fun p => choose_stronger_license p.1 p.2))
  if compatible = [] then
    dedup_by_id ((all_pairs L R).map (fun p => choose_stronger_license p.1 p.2))
  else compatible

/-- Spec §4.6: the first element of the list of minimal strength rank
(earliest occurrence wins). -/
def first_min_by_strength (ls : List NewLicense) : Option NewLicense :=
  ls.find? (fun m => ls.all (fun n =>
    decide (new_copyleft_strength_order m.copyleft_strength ≤
      new_copyleft_strength_order n.copyleft_strength)))

/-- A token that continues an enclosing OR / AND / WITH loop of the parser
(case-insensitively). -/
def is_continuation (t : String) : Bool :=
  strUpper t == "OR" || strUpper t == "AND" || strUpper t == "WITH"

/-- The two incompatibility rules heading `check_specific_compatibility`
(`GPL-2.0-only` against anything containing `GPL-3.0`). -/
def cs_false_bool (a b : NewLicense) : Bool :=
  (a.id == "GPL-2.0-only" && strContains b.id "GPL-3.0") ||
  (b.id == "GPL-2.0-only" && strContains a.id "GPL-3.0")

/-- The compatibility rules of `check_specific_compatibility` that return
`true`, as one disjunction. -/
def cs_true_bool (a b : NewLicense) : Bool :=
  (a.id == "GPL-2.0-or-later" && strContains b.id "GPL-3.0") ||
  (b.id == "GPL-2.0-or-later" && strContains a.id "GPL-3.0") ||
  (strContains a.id "LGPL-3.0" && strContains b.id "GPL-3.0") ||
  (strContains a.id "GPL-3.0" && strContains b.id "LGPL-3.0") ||
  (a.id == "LGPL-2.1-only" && b.id == "LGPL-2.1-or-later") ||
  (a.id == "LGPL-2.1-or-later" && b.id == "LGPL-2.1-only") ||
  (a.id == "LGPL-3.0-only" && b.id == "LGPL-3.0-or-later") ||
  (a.id == "LGPL-3.0-or-later" && b.id == "LGPL-3.0-only") ||
  (a.id == "MIT" && b.id == "LGPL-2.1") || (a.id == "LGPL-2.1" && b.id == "MIT") ||
  (a.id == "MIT" && b.id == "LGPL-3.0") || (a.id == "LGPL-3.0" && b.id == "MIT") ||
  (a.id == "Apache-2.0" && b.id == "LGPL-3.0") || (a.id == "LGPL-3.0" && b.id == "Apache-2.0") ||
  (a.id == "CC0-1.0") || (b.id == "CC0-1.0") ||
  (a.id == "Unlicense") || (b.id == "Unlicense") ||
  same_license_family a.id b.id

/-- The rank-based default of `check_specific_compatibility`: compatible iff
both ranks are at most 5. -/
def cs_default (a b : NewLicense) : Bool :=
  decide (new_copyleft_strength_order a.copyleft_strength ≤ 5)
    && decide (new_copyleft_strength_order b.copyleft_strength ≤ 5)

/-! ## Helper lemmas -/

theorem beq_str_comm (x y : String) : (x == y) = (y == x) := by
  by_cases h : x = y
  · subst h; rfl
  · have h1 : (x == y) = false := beq_eq_false_iff_ne.mpr h
    have h2 : (y == x) = false := beq_eq_false_iff_ne.mpr (Ne.symm h)
    rw [h1, h2]

theorem same_license_family_symm (x y : String) :
    same_license_family x y = same_license_family y x := by
  apply Bool.eq_iff_iff.mpr
  simp only [same_license_family, List.any_eq_true, Bool.and_eq_true]
  constructor
  · rintro ⟨fam, hmem, h1, h2⟩; exact ⟨fam, hmem, h2, h1⟩
  · rintro ⟨fam, hmem, h1, h2⟩; exact ⟨fam, hmem, h2, h1⟩

theorem ite_bool_true_left (c x : Bool) : (if c then true else x) = (c || x) := by
  cases c <;> simp

theorem ite_bool_false_left (c x : Bool) : (if c then false else x) = (!c && x) := by
  cases c <;> simp

theorem check_specific_eq_nf (a b : NewLicense) :
    check_specific_compatibility a b =
      (!cs_false_bool a b && (cs_true_bool a b || cs_default a b)) := by
  unfold check_specific_compatibility cs_false_bool cs_true_bool cs_default
  simp only [ite_bool_true_left, ite_bool_false_left, Bool.not_or, Bool.and_assoc,
    Bool.or_assoc]

theorem cs_false_bool_symm (a b : NewLicense) : cs_false_bool a b = cs_false_bool b a := by
  unfold cs_false_bool; exact Bool.or_comm _ _

theorem cs_true_bool_symm (a b : NewLicense) : cs_true_bool a b = cs_true_bool b a := by
  apply Bool.eq_iff_iff.mpr
  unfold cs_true_bool
  rw [same_license_family_symm]
  simp only [Bool.or_eq_true, Bool.and_eq_true, or_assoc]
  constructor <;>
    (rintro (⟨h1, h2⟩ | ⟨h1, h2⟩ | ⟨h1, h2⟩ | ⟨h1, h2⟩ | ⟨h1, h2⟩ | ⟨h1, h2⟩ | ⟨h1, h2⟩ |
      ⟨h1, h2⟩ | ⟨h1, h2⟩ | ⟨h1, h2⟩ | ⟨h1, h2⟩ | ⟨h1, h2⟩ | ⟨h1, h2⟩ | ⟨h1, h2⟩ |
      h | h | h | h | h) <;> simp_all)

theorem cs_default_symm (a b : NewLicense) : cs_default a b = cs_default b a := by
  unfold cs_default; exact Bool.and_comm _ _

theorem check_specific_compatibility_symm (a b : NewLicense) :
    check_specific_compatibility a b = check_specific_compatibility b a := by
  rw [check_specific_eq_nf, check_specific_eq_nf, cs_false_bool_symm, cs_true_bool_symm,
    cs_default_symm]

theorem are_licenses_compatible_symm (a b : NewLicense) :
    are_licenses_compatible a b = are_licenses_compatible b a := by
  obtain ⟨aid, an, ac⟩ := a
  obtain ⟨bid, bn, bc⟩ := b
  unfold are_licenses_compatible
  simp only
  rw [beq_str_comm aid bid]
  by_cases h : (bid == aid) = true
  · simp [h]
  · simp only [h, if_false, Bool.false_eq_true, if_neg]
    cases ac <;> cases bc <;>
      first
        | rfl
        | exact check_specific_compatibility_symm ⟨aid, an, _⟩ ⟨bid, bn, _⟩

theorem foldl_nested_pairs {α β γ : Type} (g : γ → α → β → γ) (L : List α) (R : List β)
    (init : γ) :
    L.foldl (fun acc a => R.foldl (fun acc2 b => g acc2 a b) acc) init
      = (L.flatMap (fun a => R.map (fun b => (a, b)))).foldl (fun acc p => g acc p.1 p.2) init := by
  induction L generalizing init with
  | nil => rfl
  | cons a L ih =>
    simp only [List.foldl_cons, List.flatMap_cons, List.foldl_append, List.foldl_map]
    rw [ih]

theorem foldl_push_filter {α : Type} (p : α → Bool) (f : α → NewLicense) (ps : List α)
    (init : List NewLicense) :
    ps.foldl (fun acc x => if p x then push_unique acc (f x) else acc) init
      = ((ps.filter p).map f).foldl push_unique init := by
  induction ps generalizing init with
  | nil => rfl
  | cons x ps ih =>
    by_cases h : p x <;> simp [List.filter_cons, h, ih]

theorem foldl_push_unique_eq (l : List NewLicense) (acc : List NewLicense) :
    l.foldl push_unique acc
      = acc ++ dedup_by_id (l.filter (fun x => !(acc.any (fun y => y.id == x.id)))) := by
  induction l generalizing acc with
  | nil => simp [dedup_by_id]
  | cons x xs ih =>
    by_cases h : acc.any (fun y => y.id == x.id)
    · simp only [List.foldl_cons, push_unique, h, if_true]
      rw [ih]
      simp [List.filter_cons, h]
    · simp only [List.foldl_cons, push_unique, h, if_false, Bool.false_eq_true]
      rw [ih]
      simp only [List.filter_cons, h, Bool.not_false, if_true, Bool.false_eq_true,
        Bool.not_eq_true]
      rw [dedup_by_id]
      simp only [List.append_assoc, List.singleton_append]
      congr 2
      rw [List.filter_filter]
      congr 1
      apply List.filter_congr
      intro z _
      apply Bool.eq_iff_iff.mpr
      simp only [List.any_append, List.any_cons, List.any_nil, Bool.or_false,
        Bool.not_or, Bool.and_eq_true, Bool.not_eq_true', Bool.not_eq_true,
        beq_eq_false_iff_ne, beq_iff_eq]
      constructor
      · rintro ⟨h1, h2⟩
        exact ⟨fun hzx => h2 (hzx.symm), h1⟩
      · rintro ⟨h1, h2⟩
        exact ⟨h2, fun hxz => h1 (hxz.symm)⟩

theorem foldl_push_unique_nil (l : List NewLicense) :
    List.foldl push_unique [] l = dedup_by_id l := by
  rw [foldl_push_unique_eq]; simp

theorem compat_pass_eq (L R : List NewLicense) :
    compat_pass L R
      = dedup_by_id (((all_pairs L R).filter (fun p => are_licenses_compatible p.1 p.2)).map
          (fun p => choose_stronger_license p.1 p.2)) := by
  unfold compat_pass all_pairs
  rw [foldl_nested_pairs
    (fun acc a b => if are_licenses_compatible a b then
      push_unique acc (choose_stronger_license a b) else acc)]
  exact (foldl_push_filter (fun p : NewLicense × NewLicense => are_licenses_compatible p.1 p.2)
    (fun p => choose_stronger_license p.1 p.2) _ _).trans (foldl_push_unique_nil _)

theorem fallback_pass_eq (L R : List NewLicense) :
    fallback_pass L R
      = dedup_by_id ((all_pairs L R).map (fun p => choose_stronger_license p.1 p.2)) := by
  unfold fallback_pass all_pairs
  rw [foldl_nested_pairs (fun acc a b => push_unique acc (choose_stronger_license a b))]
  exact (List.foldl_map (fun p : NewLicense × NewLicense => choose_stronger_license p.1 p.2)
    push_unique _ _).symm.trans (foldl_push_unique_nil _)

theorem find_compatible_licenses_eq_spec (L R : List NewLicense) :
    find_compatible_licenses L R = spec_and_semantics L R := by
  unfold find_compatible_licenses spec_and_semantics
  rw [compat_pass_eq, fallback_pass_eq]
  rcases h : dedup_by_id (((all_pairs L R).filter
      (fun p => are_licenses_compatible p.1 p.2)).map
      (fun p => choose_stronger_license p.1 p.2)) with _ | ⟨x, xs⟩ <;> simp

theorem dedup_by_id_ne_nil (x : NewLicense) (xs : List NewLicense) :
    dedup_by_id (x :: xs) ≠ [] := by
  rw [dedup_by_id]; simp

theorem find_compatible_licenses_ne_nil (a b : NewLicense) (L R : List NewLicense) :
    find_compatible_licenses (a :: L) (b :: R) ≠ [] := by
  rw [find_compatible_licenses_eq_spec]
  unfold spec_and_semantics
  rcases h : dedup_by_id (((all_pairs (a :: L) (b :: R)).filter
      (fun p => are_licenses_compatible p.1 p.2)).map
      (fun p => choose_stronger_license p.1 p.2)) with _ | ⟨x, xs⟩
  · rw [if_pos h]
    have hpairs : all_pairs (a :: L) (b :: R)
        = (a, b) :: ((R.map (fun r => (a, r))) ++ all_pairs L (b :: R)) := by
      simp [all_pairs]
    rw [hpairs]
    simp only [List.map_cons]
    exact dedup_by_id_ne_nil _ _
  · simp [h]

theorem evaluate_expression_ne_nil (db : String → Option NewLicense) (e : SpdxExpr) :
    evaluate_expression db e ≠ [] := by
  induction e with
  | License id =>
    unfold evaluate_expression
    rcases db (strLower id) with _ | l <;> simp
  | And l r ihl ihr =>
    unfold evaluate_expression
    rcases hl : evaluate_expression db l with _ | ⟨x, xs⟩
    · exact absurd hl ihl
    · rcases hr : evaluate_expression db r with _ | ⟨y, ys⟩
      · exact absurd hr ihr
      · exact find_compatible_licenses_ne_nil x y xs ys
  | Or l r ihl ihr =>
    unfold evaluate_expression
    rcases hl : evaluate_expression db l with _ | ⟨x, xs⟩
    · exact absurd hl ihl
    · simp
  | With base exc ih =>
    unfold evaluate_expression
    exact ih

theorem assess_risk_level_critical_iff (strongest : NewCopyleftStrength)
    (licenses : List NewLicense) :
    assess_risk_level strongest licenses = .Critical
      ↔ (licenses = [] ∨ strongest = .Commercial) := by
  rcases licenses with _ | ⟨l, ls⟩ <;> cases strongest <;>
    simp [assess_risk_level]

theorem sort_insert_ne_nil (x : NewLicense) (s : List NewLicense) :
    sort_insert x s ≠ [] := by
  cases s with
  | nil => simp [sort_insert]
  | cons y ys =>
    rw [sort_insert]
    split <;> simp

theorem sort_by_strength_nil_iff (ls : List NewLicense) :
    sort_by_strength ls = [] ↔ ls = [] := by
  cases ls with
  | nil => simp [sort_by_strength]
  | cons a t =>
    simp only [sort_by_strength, List.foldr_cons]
    constructor
    · intro h
      exact absurd h (sort_insert_ne_nil a _)
    · intro h
      exact absurd h (by simp)

theorem find_mono {α : Type} (p q : α → Bool) (t : List α) (b : α)
    (h1 : t.find? p = some b) (h2 : ∀ m, q m = true → p m = true) (h3 : q b = true) :
    t.find? q = some b := by
  induction t with
  | nil => simp at h1
  | cons x t ih =>
    by_cases hp : p x = true
    · rw [List.find?_cons_of_pos _ hp] at h1
      have hxb : x = b := by simpa using h1
      subst hxb
      rw [List.find?_cons_of_pos _ h3]
    · have hq : ¬ (q x = true) := fun hqx => hp (h2 x hqx)
      rw [List.find?_cons_of_neg _ (by simpa using hp)] at h1
      rw [List.find?_cons_of_neg _ (by simpa using hq)]
      exact ih h1

theorem sort_head_eq_first_min (ls : List NewLicense) :
    (sort_by_strength ls).head? = first_min_by_strength ls := by
  induction ls with
  | nil => rfl
  | cons a t ih =>
    show (sort_insert a (sort_by_strength t)).head? = _
    rcases hs : sort_by_strength t with _ | ⟨b, s⟩
    · have ht : t = [] := (sort_by_strength_nil_iff t).mp hs
      subst ht
      simp [sort_insert, first_min_by_strength]
    · rw [hs] at ih
      have hfind : t.find? (fun m => t.all fun n =>
          decide (new_copyleft_strength_order m.copyleft_strength ≤
            new_copyleft_strength_order n.copyleft_strength)) = some b := by
        simpa [first_min_by_strength] using ih.symm
      have hb_all : (t.all fun n =>
          decide (new_copyleft_strength_order b.copyleft_strength ≤
            new_copyleft_strength_order n.copyleft_strength)) = true := by
        have h := List.find?_some hfind
        simpa using h
      have hb_le : ∀ n ∈ t, new_copyleft_strength_order b.copyleft_strength ≤
          new_copyleft_strength_order n.copyleft_strength := by
        simpa [List.all_eq_true] using hb_all
      unfold first_min_by_strength
      rw [sort_insert]
      by_cases hab : new_copyleft_strength_order a.copyleft_strength ≤
          new_copyleft_strength_order b.copyleft_strength
      · rw [if_pos hab]
        have hPa : ((a :: t).all fun n =>
            decide (new_copyleft_strength_order a.copyleft_strength ≤
              new_copyleft_strength_order n.copyleft_strength)) = true := by
          simp only [List.all_cons, Bool.and_eq_true, decide_eq_true_eq, List.all_eq_true]
          exact ⟨le_refl _, fun n hn => le_trans hab (hb_le n hn)⟩
        simp only [List.find?_cons]
        rw [hPa]
        rfl
      · rw [if_neg hab]
        have hba : new_copyleft_strength_order b.copyleft_strength <
            new_copyleft_strength_order a.copyleft_strength := Nat.lt_of_not_le hab
        have hPa : ¬ (((a :: t).all fun n =>
            decide (new_copyleft_strength_order a.copyleft_strength ≤
              new_copyleft_strength_order n.copyleft_strength)) = true) := by
          simp only [List.all_cons, Bool.and_eq_true, decide_eq_true_eq, List.all_eq_true]
          rintro ⟨-, hall⟩
          have hmem : b ∈ t := List.mem_of_find?_eq_some hfind
          exact hab (hall b hmem)
        have hPa0 : ((a :: t).all fun n =>
            decide (new_copyleft_strength_order a.copyleft_strength ≤
              new_copyleft_strength_order n.copyleft_strength)) = false := by
          simpa using hPa
        simp only [List.find?_cons]
        rw [hPa0]
        have := find_mono
          (fun m => t.all fun n =>
            decide (new_copyleft_strength_order m.copyleft_strength ≤
              new_copyleft_strength_order n.copyleft_strength))
          (fun m => (a :: t).all fun n =>
            decide (new_copyleft_strength_order m.copyleft_strength ≤
              new_copyleft_strength_order n.copyleft_strength))
          t b hfind
          (by
            intro m hm
            simp only [List.all_cons, Bool.and_eq_true] at hm
            exact hm.2)
          (by
            simp only [List.all_cons, Bool.and_eq_true, decide_eq_true_eq]
            exact ⟨Nat.le_of_lt hba, hb_all⟩)
        exact this.symm

theorem choose_recommended_eq_first_min (ls : List NewLicense) :
    choose_recommended_license ls = first_min_by_strength ls := by
  rcases ls with _ | ⟨a, t⟩
  · rfl
  · unfold choose_recommended_license
    simp only [List.isEmpty_cons, if_neg]
    exact sort_head_eq_first_min (a :: t)

theorem getD_append_lt (l l' : List String) (i : Nat) (d : String) (h : i < l.length) :
    (l ++ l').getD i d = l.getD i d := by
  induction l generalizing i with
  | nil => simp at h
  | cons a l ih =>
    cases i with
    | zero => rfl
    | succ i =>
      simp only [List.cons_append, List.getD_cons_succ]
      exact ih i (by simpa using h)

theorem getD_append_len (l : List String) (x : String) (r : List String) (d : String) :
    (l ++ x :: r).getD l.length d = x := by
  induction l with
  | nil => rfl
  | cons a l ih => simpa using ih

theorem parse_step_bound : ∀ (fuel : Nat) (mode : ParseMode) (ts : List String) (pos : Nat)
    (e : SpdxExpr) (p : Nat), pos ≤ ts.length → parse_step fuel mode ts pos = .ok (e, p) →
    pos ≤ p ∧ p ≤ ts.length := by
  intro fuel
  induction fuel with
  | zero =>
    intro mode ts pos e p _ h
    simp [parse_step] at h
  | succ fuel ih =>
    intro mode ts pos e p hpos h
    cases mode with
    | orE =>
      rw [parse_step] at h
      cases h1 : parse_step fuel .andE ts pos with
      | error e1 => rw [h1] at h; simp at h
      | ok r1 =>
        obtain ⟨l1, p1⟩ := r1
        rw [h1] at h
        have hb1 := ih .andE ts pos l1 p1 hpos h1
        have hb2 := ih (.orLoop l1) ts p1 e p hb1.2 h
        exact ⟨le_trans hb1.1 hb2.1, hb2.2⟩
    | orLoop left =>
      rw [parse_step] at h
      by_cases hc : pos < ts.length ∧ strUpper (ts.getD pos "") = "OR"
      · rw [if_pos hc] at h
        cases h1 : parse_step fuel .andE ts (pos + 1) with
        | error e1 => rw [h1] at h; simp at h
        | ok r1 =>
          obtain ⟨r, p1⟩ := r1
          rw [h1] at h
          have hb1 := ih .andE ts (pos + 1) r p1 hc.1 h1
          have hb2 := ih (.orLoop (.Or left r)) ts p1 e p hb1.2 h
          exact ⟨by omega, hb2.2⟩
      · rw [if_neg hc] at h
        simp only [Except.ok.injEq, Prod.mk.injEq] at h
        obtain ⟨rfl, rfl⟩ := h
        exact ⟨le_refl _, hpos⟩
    | andE =>
      rw [parse_step] at h
      cases h1 : parse_step fuel .withE ts pos with
      | error e1 => rw [h1] at h; simp at h
      | ok r1 =>
        obtain ⟨l1, p1⟩ := r1
        rw [h1] at h
        have hb1 := ih .withE ts pos l1 p1 hpos h1
        have hb2 := ih (.andLoop l1) ts p1 e p hb1.2 h
        exact ⟨le_trans hb1.1 hb2.1, hb2.2⟩
    | andLoop left =>
      rw [parse_step] at h
      by_cases hc : pos < ts.length ∧ strUpper (ts.getD pos "") = "AND"
      · rw [if_pos hc] at h
        cases h1 : parse_step fuel .withE ts (pos + 1) with
        | error e1 => rw [h1] at h; simp at h
        | ok r1 =>
          obtain ⟨r, p1⟩ := r1
          rw [h1] at h
          have hb1 := ih .withE ts (pos + 1) r p1 hc.1 h1
          have hb2 := ih (.andLoop (.And left r)) ts p1 e p hb1.2 h
          exact ⟨by omega, hb2.2⟩
      · rw [if_neg hc] at h
        simp only [Except.ok.injEq, Prod.mk.injEq] at h
        obtain ⟨rfl, rfl⟩ := h
        exact ⟨le_refl _, hpos⟩
    | withE =>
      rw [parse_step] at h
      cases h1 : parse_step fuel .primary ts pos with
      | error e1 => rw [h1] at h; simp at h
      | ok r1 =>
        obtain ⟨l1, p1⟩ := r1
        rw [h1] at h
        have hb1 := ih .primary ts pos l1 p1 hpos h1
        have hb2 := ih (.withLoop l1) ts p1 e p hb1.2 h
        exact ⟨le_trans hb1.1 hb2.1, hb2.2⟩
    | withLoop left =>
      rw [parse_step] at h
      by_cases hc : pos < ts.length ∧ strUpper (ts.getD pos "") = "WITH"
      · rw [if_pos hc] at h
        by_cases h2 : pos + 1 < ts.length
        · rw [if_pos h2] at h
          have hb2 := ih (.withLoop (.With left (ts.getD (pos + 1) ""))) ts (pos + 2) e p
            (by omega) h
          exact ⟨by omega, hb2.2⟩
        · rw [if_neg h2] at h
          simp at h
      · rw [if_neg hc] at h
        simp only [Except.ok.injEq, Prod.mk.injEq] at h
        obtain ⟨rfl, rfl⟩ := h
        exact ⟨le_refl _, hpos⟩
    | primary =>
      rw [parse_step] at h
      by_cases hlt : pos < ts.length
      · rw [if_pos hlt] at h
        by_cases hparen : ts.getD pos "" = "("
        · rw [if_pos hparen] at h
          cases h1 : parse_step fuel .orE ts (pos + 1) with
          | error e1 => rw [h1] at h; simp at h
          | ok r1 =>
            obtain ⟨e0, p0⟩ := r1
            simp only [h1] at h
            by_cases h2 : p0 < ts.length ∧ ts.getD p0 "" = ")"
            · rw [if_pos h2] at h
              simp only [Except.ok.injEq, Prod.mk.injEq] at h
              obtain ⟨rfl, rfl⟩ := h
              have hb1 := ih .orE ts (pos + 1) e0 p0 hlt h1
              exact ⟨by omega, by omega⟩
            · rw [if_neg h2] at h
              simp at h
        · rw [if_neg hparen] at h
          simp only [Except.ok.injEq, Prod.mk.injEq] at h
          obtain ⟨rfl, rfl⟩ := h
          exact ⟨by omega, by omega⟩
      · rw [if_neg hlt] at h
        simp at h

theorem parse_step_mono : ∀ (fuel fuel' : Nat), fuel ≤ fuel' →
    ∀ (mode : ParseMode) (ts : List String) (pos : Nat) (r : SpdxExpr × Nat),
    parse_step fuel mode ts pos = .ok r → parse_step fuel' mode ts pos = .ok r := by
  intro fuel
  induction fuel with
  | zero =>
    intro fuel' _ mode ts pos r h
    simp [parse_step] at h
  | succ fuel ih =>
    intro fuel' hle mode ts pos r h
    obtain ⟨fuel2, rfl⟩ : ∃ k, fuel' = k + 1 := ⟨fuel' - 1, by omega⟩
    have hle2 : fuel ≤ fuel2 := by omega
    cases mode with
    | orE =>
      rw [parse_step] at h ⊢
      cases h1 : parse_step fuel .andE ts pos with
      | error e1 => rw [h1] at h; simp at h
      | ok r1 =>
        rw [h1] at h
        rw [ih fuel2 hle2 .andE ts pos r1 h1]
        exact ih fuel2 hle2 (.orLoop r1.1) ts r1.2 r h
    | orLoop left =>
      rw [parse_step] at h ⊢
      by_cases hc : pos < ts.length ∧ strUpper (ts.getD pos "") = "OR"
      · rw [if_pos hc] at h ⊢
        cases h1 : parse_step fuel .andE ts (pos + 1) with
        | error e1 => rw [h1] at h; simp at h
        | ok r1 =>
          rw [h1] at h
          rw [ih fuel2 hle2 .andE ts (pos + 1) r1 h1]
          exact ih fuel2 hle2 (.orLoop (.Or left r1.1)) ts r1.2 r h
      · rw [if_neg hc] at h ⊢
        exact h
    | andE =>
      rw [parse_step] at h ⊢
      cases h1 : parse_step fuel .withE ts pos with
      | error e1 => rw [h1] at h; simp at h
      | ok r1 =>
        rw [h1] at h
        rw [ih fuel2 hle2 .withE ts pos r1 h1]
        exact ih fuel2 hle2 (.andLoop r1.1) ts r1.2 r h
    | andLoop left =>
      rw [parse_step] at h ⊢
      by_cases hc : pos < ts.length ∧ strUpper (ts.getD pos "") = "AND"
      · rw [if_pos hc] at h ⊢
        cases h1 : parse_step fuel .withE ts (pos + 1) with
        | error e1 => rw [h1] at h; simp at h
        | ok r1 =>
          rw [h1] at h
          rw [ih fuel2 hle2 .withE ts (pos + 1) r1 h1]
          exact ih fuel2 hle2 (.andLoop (.And left r1.1)) ts r1.2 r h
      · rw [if_neg hc] at h ⊢
        exact h
    | withE =>
      rw [parse_step] at h ⊢
      cases h1 : parse_step fuel .primary ts pos with
      | error e1 => rw [h1] at h; simp at h
      | ok r1 =>
        rw [h1] at h
        rw [ih fuel2 hle2 .primary ts pos r1 h1]
        exact ih fuel2 hle2 (.withLoop r1.1) ts r1.2 r h
    | withLoop left =>
      rw [parse_step] at h ⊢
      by_cases hc : pos < ts.length ∧ strUpper (ts.getD pos "") = "WITH"
      · rw [if_pos hc] at h ⊢
        by_cases h2 : pos + 1 < ts.length
        · rw [if_pos h2] at h ⊢
          exact ih fuel2 hle2 (.withLoop (.With left (ts.getD (pos + 1) ""))) ts (pos + 2) r h
        · rw [if_neg h2] at h
          simp at h
      · rw [if_neg hc] at h ⊢
        exact h
    | primary =>
      rw [parse_step] at h ⊢
      by_cases hlt : pos < ts.length
      · rw [if_pos hlt] at h ⊢
        by_cases hparen : ts.getD pos "" = "("
        · rw [if_pos hparen] at h ⊢
          cases h1 : parse_step fuel .orE ts (pos + 1) with
          | error e1 => rw [h1] at h; simp at h
          | ok r1 =>
            simp only [h1] at h
            rw [ih fuel2 hle2 .orE ts (pos + 1) r1 h1]
            exact h
        · rw [if_neg hparen] at h ⊢
          exact h
      · rw [if_neg hlt] at h
        simp at h

theorem parse_step_extend (x : String) (rest : List String)
    (hx : is_continuation x = false) :
    ∀ (fuel : Nat) (mode : ParseMode) (ts : List String) (pos : Nat) (r : SpdxExpr × Nat),
    pos ≤ ts.length → parse_step fuel mode ts pos = .ok r →
    parse_step fuel mode (ts ++ x :: rest) pos = .ok r := by
  have hxOR : ¬ strUpper x = "OR" := by
    intro hcon
    simp [is_continuation, hcon] at hx
  have hxAND : ¬ strUpper x = "AND" := by
    intro hcon
    simp [is_continuation, hcon] at hx
  have hxWITH : ¬ strUpper x = "WITH" := by
    intro hcon
    simp [is_continuation, hcon] at hx
  intro fuel
  induction fuel with
  | zero =>
    intro mode ts pos r _ h
    simp [parse_step] at h
  | succ fuel ih =>
    intro mode ts pos r hpos h
    cases mode with
    | orE =>
      rw [parse_step] at h ⊢
      cases h1 : parse_step fuel .andE ts pos with
      | error e1 => rw [h1] at h; simp at h
      | ok r1 =>
        rw [h1] at h
        have hb1 := parse_step_bound fuel .andE ts pos r1.1 r1.2 hpos (by
          rw [h1])
        rw [ih .andE ts pos r1 hpos h1]
        exact ih (.orLoop r1.1) ts r1.2 r hb1.2 h
    | orLoop left =>
      rw [parse_step] at h ⊢
      by_cases hlt : pos < ts.length
      · have hgd : (ts ++ x :: rest).getD pos "" = ts.getD pos "" :=
          getD_append_lt ts (x :: rest) pos "" hlt
        by_cases hkw : strUpper (ts.getD pos "") = "OR"
        · rw [if_pos ⟨hlt, hkw⟩] at h
          rw [if_pos ⟨by simp; omega, by rw [hgd]; exact hkw⟩]
          cases h1 : parse_step fuel .andE ts (pos + 1) with
          | error e1 => rw [h1] at h; simp at h
          | ok r1 =>
            rw [h1] at h
            have hb1 := parse_step_bound fuel .andE ts (pos + 1) r1.1 r1.2 hlt (by rw [h1])
            rw [ih .andE ts (pos + 1) r1 hlt h1]
            exact ih (.orLoop (.Or left r1.1)) ts r1.2 r hb1.2 h
        · rw [if_neg (by intro hc; exact hkw hc.2)] at h
          rw [if_neg (by intro hc; rw [hgd] at hc; exact hkw hc.2)]
          exact h
      · have hpe : pos = ts.length := by omega
        subst hpe
        rw [if_neg (by intro hc; omega)] at h
        have hgd : (ts ++ x :: rest).getD ts.length "" = x := getD_append_len ts x rest ""
        rw [if_neg (by intro hc; rw [hgd] at hc; exact hxOR hc.2)]
        exact h
    | andE =>
      rw [parse_step] at h ⊢
      cases h1 : parse_step fuel .withE ts pos with
      | error e1 => rw [h1] at h; simp at h
      | ok r1 =>
        rw [h1] at h
        have hb1 := parse_step_bound fuel .withE ts pos r1.1 r1.2 hpos (by rw [h1])
        rw [ih .withE ts pos r1 hpos h1]
        exact ih (.andLoop r1.1) ts r1.2 r hb1.2 h
    | andLoop left =>
      rw [parse_step] at h ⊢
      by_cases hlt : pos < ts.length
      · have hgd : (ts ++ x :: rest).getD pos "" = ts.getD pos "" :=
          getD_append_lt ts (x :: rest) pos "" hlt
        by_cases hkw : strUpper (ts.getD pos "") = "AND"
        · rw [if_pos ⟨hlt, hkw⟩] at h
          rw [if_pos ⟨by simp; omega, by rw [hgd]; exact hkw⟩]
          cases h1 : parse_step fuel .withE ts (pos + 1) with
          | error e1 => rw [h1] at h; simp at h
          | ok r1 =>
            rw [h1] at h
            have hb1 := parse_step_bound fuel .withE ts (pos + 1) r1.1 r1.2 hlt (by rw [h1])
            rw [ih .withE ts (pos + 1) r1 hlt h1]
            exact ih (.andLoop (.And left r1.1)) ts r1.2 r hb1.2 h
        · rw [if_neg (by intro hc; exact hkw hc.2)] at h
          rw [if_neg (by intro hc; rw [hgd] at hc; exact hkw hc.2)]
          exact h
      · have hpe : pos = ts.length := by omega
        subst hpe
        rw [if_neg (by intro hc; omega)] at h
        have hgd : (ts ++ x :: rest).getD ts.length "" = x := getD_append_len ts x rest ""
        rw [if_neg (by intro hc; rw [hgd] at hc; exact hxAND hc.2)]
        exact h
    | withE =>
      rw [parse_step] at h ⊢
      cases h1 : parse_step fuel .primary ts pos with
      | error e1 => rw [h1] at h; simp at h
      | ok r1 =>
        rw [h1] at h
        have hb1 := parse_step_bound fuel .primary ts pos r1.1 r1.2 hpos (by rw [h1])
        rw [ih .primary ts pos r1 hpos h1]
        exact ih (.withLoop r1.1) ts r1.2 r hb1.2 h
    | withLoop left =>
      rw [parse_step] at h ⊢
      by_cases hlt : pos < ts.length
      · have hgd : (ts ++ x :: rest).getD pos "" = ts.getD pos "" :=
          getD_append_lt ts (x :: rest) pos "" hlt
        by_cases hkw : strUpper (ts.getD pos "") = "WITH"
        · rw [if_pos ⟨hlt, hkw⟩] at h
          rw [if_pos ⟨by simp; omega, by rw [hgd]; exact hkw⟩]
          by_cases h2 : pos + 1 < ts.length
          · rw [if_pos h2] at h
            rw [if_pos (by simp; omega)]
            have hgd2 : (ts ++ x :: rest).getD (pos + 1) "" = ts.getD (pos + 1) "" :=
              getD_append_lt ts (x :: rest) (pos + 1) "" h2
            rw [hgd2]
            exact ih (.withLoop (.With left (ts.getD (pos + 1) ""))) ts (pos + 2) r
              (by omega) h
          · rw [if_neg h2] at h
            simp at h
        · rw [if_neg (by intro hc; exact hkw hc.2)] at h
          rw [if_neg (by intro hc; rw [hgd] at hc; exact hkw hc.2)]
          exact h
      · have hpe : pos = ts.length := by omega
        subst hpe
        rw [if_neg (by intro hc; omega)] at h
        have hgd : (ts ++ x :: rest).getD ts.length "" = x := getD_append_len ts x rest ""
        rw [if_neg (by intro hc; rw [hgd] at hc; exact hxWITH hc.2)]
        exact h
    | primary =>
      rw [parse_step] at h ⊢
      by_cases hlt : pos < ts.length
      · rw [if_pos hlt] at h
        rw [if_pos (by simp; omega)]
        have hgd : (ts ++ x :: rest).getD pos "" = ts.getD pos "" :=
          getD_append_lt ts (x :: rest) pos "" hlt
        rw [hgd]
        by_cases hparen : ts.getD pos "" = "("
        · rw [if_pos hparen] at h ⊢
          cases h1 : parse_step fuel .orE ts (pos + 1) with
          | error e1 => rw [h1] at h; simp at h
          | ok r1 =>
            obtain ⟨e0, p0⟩ := r1
            simp only [h1] at h
            simp only [ih .orE ts (pos + 1) (e0, p0) hlt h1]
            by_cases h2 : p0 < ts.length ∧ ts.getD p0 "" = ")"
            · rw [if_pos h2] at h
              have hgd2 : (ts ++ x :: rest).getD p0 "" = ts.getD p0 "" :=
                getD_append_lt ts (x :: rest) p0 "" h2.1
              rw [if_pos ⟨by simp; omega, by rw [hgd2]; exact h2.2⟩]
              exact h
            · rw [if_neg h2] at h
              simp at h
        · rw [if_neg hparen] at h ⊢
          exact h
      · rw [if_neg hlt] at h
        simp at h

/-! ## Claim theorems -/

/-- C1, counterexample: for `"GPL-2.0-only AND GPL-3.0-only"` with a registry
classifying both ids as Copyleft, the post-fallback candidate set is
`[GPL-2.0-only]` and `recommended` is `GPL-2.0-only`, but `conflicts` is empty:
the GPL-2.0-only/GPL-3.0 message does not fire, because the post-fallback set
contains no id with substring `GPL-3.0`. This falsifies the claim's third
conjunct. -/
theorem c1_counterexample :
    (analyze demoRegistry "GPL-2.0-only AND GPL-3.0-only").possible_licenses
        = [{ id := "GPL-2.0-only", name := "GPL-2.0-only", copyleft_strength := .Copyleft }]
    ∧ (analyze demoRegistry "GPL-2.0-only AND GPL-3.0-only").recommended_choice
        = some { id := "GPL-2.0-only", name := "GPL-2.0-only", copyleft_strength := .Copyleft }
    ∧ (analyze demoRegistry "GPL-2.0-only AND GPL-3.0-only").conflicts = [] := by
  refine ⟨?_, ?_, ?_⟩ <;> decide

/-- C1, amended: for `"GPL-2.0-only AND GPL-3.0-only"` with any registry that
classifies both ids as Copyleft (keys lowercased, ids in original case),
`analyze` yields candidates `[GPL-2.0-only]` and recommended `GPL-2.0-only`,
and the conflicts list is empty — the fixed GPL-2.0-only/GPL-3.0 message does
not appear, since the conflict check runs on the post-fallback candidate set,
which no longer contains a `GPL-3.0` id. -/
theorem c1_amended (db : String → Option NewLicense) (n1 n2 : String)
    (h1 : db "gpl-2.0-only"
      = some { id := "GPL-2.0-only", name := n1, copyleft_strength := .Copyleft })
    (h2 : db "gpl-3.0-only"
      = some { id := "GPL-3.0-only", name := n2, copyleft_strength := .Copyleft }) :
    (analyze db "GPL-2.0-only AND GPL-3.0-only").possible_licenses
        = [{ id := "GPL-2.0-only", name := n1, copyleft_strength := .Copyleft }]
    ∧ (analyze db "GPL-2.0-only AND GPL-3.0-only").recommended_choice
        = some { id := "GPL-2.0-only", name := n1, copyleft_strength := .Copyleft }
    ∧ (analyze db "GPL-2.0-only AND GPL-3.0-only").conflicts = [] := by
  have hp : parse "GPL-2.0-only AND GPL-3.0-only"
      = .ok (.And (.License "GPL-2.0-only") (.License "GPL-3.0-only")) := by decide
  have hev : evaluate_expression db (.And (.License "GPL-2.0-only") (.License "GPL-3.0-only"))
      = [{ id := "GPL-2.0-only", name := n1, copyleft_strength := .Copyleft }] := by
    show find_compatible_licenses
        (evaluate_expression db (.License "GPL-2.0-only"))
        (evaluate_expression db (.License "GPL-3.0-only")) = _
    have e1 : evaluate_expression db (.License "GPL-2.0-only")
        = [{ id := "GPL-2.0-only", name := n1, copyleft_strength := .Copyleft }] := by
      show (match db (strLower "GPL-2.0-only") with
        | some l => [l]
        | none => [{ id := "GPL-2.0-only", name := "Unknown License: " ++ "GPL-2.0-only",
                     copyleft_strength := .UnstatedLicense }]) = _
      rw [show strLower "GPL-2.0-only" = "gpl-2.0-only" from rfl, h1]
    have e2 : evaluate_expression db (.License "GPL-3.0-only")
        = [{ id := "GPL-3.0-only", name := n2, copyleft_strength := .Copyleft }] := by
      show (match db (strLower "GPL-3.0-only") with
        | some l => [l]
        | none => [{ id := "GPL-3.0-only", name := "Unknown License: " ++ "GPL-3.0-only",
                     copyleft_strength := .UnstatedLicense }]) = _
      rw [show strLower "GPL-3.0-only" = "gpl-3.0-only" from rfl, h2]
    rw [e1, e2]
    rfl
  unfold analyze
  simp only [hp, hev]
  refine ⟨?_, ?_, ?_⟩ <;> trivial

/-- C1, witness: the amended theorem instantiated at the concrete demo
registry, all hypotheses discharged. -/
theorem c1_amended_witness :
    demoRegistry "gpl-2.0-only"
        = some { id := "GPL-2.0-only", name := "GPL-2.0-only", copyleft_strength := .Copyleft }
    ∧ ((analyze demoRegistry "GPL-2.0-only AND GPL-3.0-only").possible_licenses
        = [{ id := "GPL-2.0-only", name := "GPL-2.0-only", copyleft_strength := .Copyleft }]
    ∧ (analyze demoRegistry "GPL-2.0-only AND GPL-3.0-only").recommended_choice
        = some { id := "GPL-2.0-only", name := "GPL-2.0-only", copyleft_strength := .Copyleft }
    ∧ (analyze demoRegistry "GPL-2.0-only AND GPL-3.0-only").conflicts = []) :=
  ⟨by decide, c1_amended demoRegistry "GPL-2.0-only" "GPL-3.0-only" (by decide) (by decide)⟩

/-- C2, counterexample: a single Commercial license yields a non-empty
candidate list with `risk_level = Critical`, so Critical does not imply the
candidate set is empty — the claimed iff fails and risk is not independent of
`strongest_category`. -/
theorem c2_counterexample :
    (analyze demoRegistry "Proprietary-1.0").risk_level = .Critical
    ∧ (analyze demoRegistry "Proprietary-1.0").possible_licenses
        = [{ id := "Proprietary-1.0", name := "Proprietary 1.0",
             copyleft_strength := .Commercial }] := by
  refine ⟨?_, ?_⟩ <;> decide

/-- C2, amended: for every input expression and registry, `risk_level` is
`Critical` iff the candidate list is empty **or** the strongest category is
`Commercial` (the Commercial arm of `assess_risk_level` also returns
Critical). -/
theorem c2_amended (db : String → Option NewLicense) (s : String) :
    (analyze db s).risk_level = .Critical
      ↔ ((analyze db s).possible_licenses = []
          ∨ (analyze db s).strongest_copyleft = .Commercial) :=
  assess_risk_level_critical_iff _ _

/-- C3: evaluating `And(l, r)` returns exactly the spec's construction — over
all pairs of `L × R` in order (inner right index fastest), keep
`chooseStronger` of each compatible pair deduplicated by id (first occurrence
wins, order preserved), falling back to the same construction over all pairs
when no pair is compatible. -/
theorem c3_and_semantics (db : String → Option NewLicense) :
    (∀ l r : SpdxExpr,
      evaluate_expression db (.And l r)
        = spec_and_semantics (evaluate_expression db l) (evaluate_expression db r))
    ∧ ∀ L R : List NewLicense, find_compatible_licenses L R = spec_and_semantics L R :=
  ⟨fun _ _ => find_compatible_licenses_eq_spec _ _,
   fun L R => find_compatible_licenses_eq_spec L R⟩

/-- C8: the compatibility relation is symmetric, both at the category level
(`are_licenses_compatible`) and for the delegated identifier-pattern rules
with their rank-based default (`check_specific_compatibility`). -/
theorem c8_symmetry (a b : NewLicense) :
    are_licenses_compatible a b = are_licenses_compatible b a
    ∧ check_specific_compatibility a b = check_specific_compatibility b a :=
  ⟨are_licenses_compatible_symm a b, check_specific_compatibility_symm a b⟩

/-- C5: whenever parsing fails, `analyze` still returns normally with
`parsed_expression = none`, empty candidates, `Critical` risk, and the
conflicts list holding exactly the generic no-compatible-licenses message. -/
theorem c5_parse_error_recovery (db : String → Option NewLicense) (s msg : String)
    (h : parse s = .error msg) :
    (analyze db s).parsed_expression = none
    ∧ (analyze db s).possible_licenses = []
    ∧ (analyze db s).risk_level = .Critical
    ∧ (analyze db s).conflicts
        = ["Complete licensing conflict - no compatible licenses found"] := by
  unfold analyze
  simp only [h]
  refine ⟨?_, ?_, ?_, ?_⟩ <;> trivial

/-- C5, witness: the mismatched-parentheses input `"(A AND B"` at the demo
registry. -/
theorem c5_witness :
    parse "(A AND B" = .error "Mismatched parentheses"
    ∧ ((analyze demoRegistry "(A AND B").parsed_expression = none
    ∧ (analyze demoRegistry "(A AND B").possible_licenses = []
    ∧ (analyze demoRegistry "(A AND B").risk_level = .Critical
    ∧ (analyze demoRegistry "(A AND B").conflicts
        = ["Complete licensing conflict - no compatible licenses found"]) :=
  ⟨by decide, c5_parse_error_recovery demoRegistry "(A AND B" "Mismatched parentheses" (by decide)⟩

/-- C6, counterexample: the report of `analyze demoRegistry "MIT"` does not
begin with `"Original Expression:"` — its first line is
`"License Analysis for: <text>"`. -/
theorem c6_counterexample :
    strStarts (render (analyze demoRegistry "MIT")) "Original Expression:" = false
    ∧ strStarts (render (analyze demoRegistry "MIT")) "License Analysis for:" = true := by
  refine ⟨?_, ?_⟩ <;> decide

/-- C6, amended: for every `AnalysisResult`, the report begins with the line
`"License Analysis for: <text>"`, followed by `"Risk Level: <name>"` and
`"Strongest Copyleft: <category display name>"`, in that exact order. -/
theorem c6_amended (a : LicenseAnalysis) :
    render a
      = "License Analysis for: " ++ a.original_expression ++ "\n"
        ++ "Risk Level: " ++ risk_level_name a.risk_level ++ "\n"
        ++ "Strongest Copyleft: " ++ strength_display_name a.strongest_copyleft ++ "\n"
        ++ render_tail a := rfl

/-- C7: the recommendation is `none` exactly on an empty candidate list, and
otherwise is the head of the stable ascending sort by rank — equivalently the
earliest candidate of minimal rank; concretely, `"MIT OR Apache-2.0"` with
both ids Permissive yields candidates `[MIT, Apache-2.0]` in order and
recommended `MIT`. -/
theorem c7_recommended (ls : List NewLicense) :
    (choose_recommended_license ls = none ↔ ls = [])
    ∧ choose_recommended_license ls = first_min_by_strength ls
    ∧ (analyze demoRegistry "MIT OR Apache-2.0").possible_licenses
        = [{ id := "MIT", name := "MIT License", copyleft_strength := .Permissive },
           { id := "Apache-2.0", name := "Apache License 2.0",
             copyleft_strength := .Permissive }]
    ∧ (analyze demoRegistry "MIT OR Apache-2.0").recommended_choice
        = some { id := "MIT", name := "MIT License", copyleft_strength := .Permissive } := by
  refine ⟨?_, choose_recommended_eq_first_min ls, by decide, by decide⟩
  rcases ls with _ | ⟨a, t⟩
  · simp [choose_recommended_license]
  · unfold choose_recommended_license
    simp [List.head?_eq_none_iff, sort_by_strength_nil_iff]

/-- C9: the top-level parse does not require all tokens to be consumed — if a
token list parses completely to `e`, then appending extra tokens whose first
element is not an OR/AND/WITH continuation leaves the parse result `e`
unchanged, silently discarding the trailing tokens; concretely,
`"MIT GPL-3.0"` parses to the leaf `MIT`. -/
theorem c9_trailing_tokens :
    (∀ (ts : List String) (x : String) (rest : List String) (e : SpdxExpr),
      is_continuation x = false →
      parse_or_expression (parse_fuel ts) ts 0 = .ok (e, ts.length) →
      parse_tokens (ts ++ x :: rest) = .ok e)
    ∧ parse "MIT GPL-3.0" = .ok (.License "MIT") := by
  constructor
  · intro ts x rest e hx hc
    have hfuel : parse_fuel ts ≤ parse_fuel (ts ++ x :: rest) := by
      unfold parse_fuel
      simp only [List.length_append, List.length_cons]
      omega
    have h1 : parse_step (parse_fuel (ts ++ x :: rest)) .orE ts 0 = .ok (e, ts.length) :=
      parse_step_mono _ _ hfuel .orE ts 0 (e, ts.length) hc
    have h2 := parse_step_extend x rest hx (parse_fuel (ts ++ x :: rest)) .orE ts 0
      (e, ts.length) (by omega) h1
    unfold parse_tokens parse_or_expression
    rw [h2]
  · decide

/-- C9, witness: `["MIT"]` parses completely to the leaf `MIT`, `"GPL-3.0"`
is not a continuation keyword, and the extended token list still parses to
the leaf `MIT`. -/
theorem c9_witness :
    is_continuation "GPL-3.0" = false
    ∧ parse_or_expression (parse_fuel ["MIT"]) ["MIT"] 0 = .ok (.License "MIT", 1)
    ∧ parse_tokens ["MIT", "GPL-3.0"] = .ok (.License "MIT") :=
  ⟨by decide, by decide,
   c9_trailing_tokens.1 ["MIT"] "GPL-3.0" [] (.License "MIT") (by decide) (by decide)⟩

/-- C10: evaluation never returns an empty sequence (for every tree and every
registry, including the empty one), and consequently the candidates field of
an `AnalysisResult` is empty exactly when parsing failed. -/
theorem c10_candidates_nonempty (db : String → Option NewLicense) (s : String)
    (e : SpdxExpr) :
    ((analyze db s).possible_licenses = [] ↔ (analyze db s).parsed_expression = none)
    ∧ (evaluate_expression db e).isEmpty = false := by
  constructor
  · unfold analyze
    cases hp : parse s with
    | ok t => simp [hp, evaluate_expression_ne_nil db t]
    | error e1 => simp [hp]
  · rcases h : evaluate_expression db e with _ | ⟨a, l⟩
    · exact absurd h (evaluate_expression_ne_nil db e)
    · rfl

/-- C4, counterexample: an entry whose primary identifier `"MIT"` carries
upper case is stored under the key `"MIT"` as-is (not lowercased), so the
lowercased lookup `"mit"` misses and the leaf `MIT` degrades to a synthetic
unknown record instead of resolving to the entry's Permissive record. -/
theorem c4_counterexample :
    (load_licenses_from_json
        [{ license_key := "MIT", category := "Permissive", spdx_license_key := none,
           other_spdx_license_keys := [], is_exception := false, is_deprecated := false,
           json := "", yaml := "", html := "", license := "" }]) "mit" = none
    ∧ (load_licenses_from_json
        [{ license_key := "MIT", category := "Permissive", spdx_license_key := none,
           other_spdx_license_keys := [], is_exception := false, is_deprecated := false,
           json := "", yaml := "", html := "", license := "" }]) "MIT"
        = some { id := "MIT", name := "MIT", copyleft_strength := .Permissive }
    ∧ evaluate_expression
        (load_licenses_from_json
          [{ license_key := "MIT", category := "Permissive", spdx_license_key := none,
             other_spdx_license_keys := [], is_exception := false, is_deprecated := false,
             json := "", yaml := "", html := "", license := "" }])
        (.License "MIT")
        = [{ id := "MIT", name := "Unknown License: MIT",
             copyleft_strength := .UnstatedLicense }] := by
  refine ⟨?_, ?_, ?_⟩ <;> decide

/-- C4, amended: lookup lowercases the query, but the stored key is the
entry's primary identifier unchanged; a leaf resolves to an entry's record
exactly when the lowercased id equals the stored `license_key` — so
case-insensitive resolution holds only when the stored identifier is already
lowercase. -/
theorem c4_amended (e : RawLicense) (q : String) (h : strLower q = e.license_key) :
    evaluate_expression (load_licenses_from_json [e]) (.License q)
      = [new_license_of_raw e] := by
  show (match load_licenses_from_json [e] (strLower q) with
    | some l => [l]
    | none => [{ id := q, name := "Unknown License: " ++ q,
                 copyleft_strength := .UnstatedLicense }]) = _
  unfold load_licenses_from_json
  simp [h]

/-- C4, witness: an all-lowercase entry `"mit"` is found by the query
`"MIT"` up to case. -/
theorem c4_amended_witness :
    strLower "MIT"
        = RawLicense.license_key
            { license_key := "mit", category := "Permissive", spdx_license_key := none,
              other_spdx_license_keys := [], is_exception := false, is_deprecated := false,
              json := "", yaml := "", html := "", license := "" }
    ∧ evaluate_expression
        (load_licenses_from_json
          [{ license_key := "mit", category := "Permissive", spdx_license_key := none,
             other_spdx_license_keys := [], is_exception := false, is_deprecated := false,
             json := "", yaml := "", html := "", license := "" }])
        (.License "MIT")
        = [new_license_of_raw
            { license_key := "mit", category := "Permissive", spdx_license_key := none,
              other_spdx_license_keys := [], is_exception := false, is_deprecated := false,
              json := "", yaml := "", html := "", license := "" }] :=
  ⟨by decide,
   c4_amended
     { license_key := "mit", category := "Permissive", spdx_license_key := none,
       other_spdx_license_keys := [], is_exception := false, is_deprecated := false,
       json := "", yaml := "", html := "", license := "" } "MIT" (by decide)⟩
